import Mathlib

/-!
Shallow embedding of the OIDC consent-resolution subsystem of this
repository (the consent interaction routes: the missing-resource-scope
enricher `parseMissingResourceScopesInfo`, the feature-gated filter step
`filterAndParseMissingResourceScopes`, and the POST / GET consent
handlers).

Modelling conventions:
- JS `Record<string, string[]>` mappings are embedded as ordered
  association lists `List (String × List String)`; `Object.entries`
  iterates keys in insertion order and keys of a JS object are unique,
  so `Object.fromEntries` after an entry-wise `map` is the identity on
  the key structure and is embedded as plain `List.map`.
- `Promise.all` over entry-wise async work is embedded as a sequential
  effectful map over `Except`: all entries are computed, an entry
  rejection rejects the whole batch, and the result list preserves the
  input order (exactly the observable behavior of `Promise.all`).
- Thrown protocol errors (`InvalidTarget`, `InvalidClient`,
  `InvalidRedirectUri`, assertion errors) are embedded as an error
  inductive carried by `Except`.
- Persistence queries and out-of-scope collaborators are embedded as
  function-valued parameters (`Queries`, `Env`, `Libraries`), quantified
  over in the theorems.
-/

/-- `ReservedResource.Organization` from `@logto/core-kit`: the reserved
pseudo-resource indicator for organizations. -/
def ReservedResource_Organization : String :=
  "urn:logto:resource:organizations"

/-- `UserScope.Organizations` from `@logto/core-kit`: the OIDC scope that
requests the user's organization memberships. -/
def UserScope_Organizations : String :=
  "urn:logto:scope:organizations"

/-- A scope entity (`id`, `name`); owned by a resource or by the reserved
organization pseudo-resource. -/
structure Scope where
  id : String
  name : String
deriving DecidableEq, Repr

/-- A protected resource entity: identity, display name and indicator. -/
structure Resource where
  id : String
  name : String
  indicator : String
deriving DecidableEq, Repr

/-- The `resource` part of a missing-resource-scopes record, as kept by
`missingResourceScopesGuard.parse` (only `id` and `name` survive). -/
structure ResourceInfo where
  id : String
  name : String
deriving DecidableEq, Repr

/-- A record of the `missingResourceScopes` output list:
`{ resource: {id, name}, scopes: Scope[] }`. -/
structure MissingResourceScopes where
  resource : ResourceInfo
  scopes : List Scope
deriving DecidableEq, Repr

/-- An organization entity (`id`, `name`). -/
structure Organization where
  id : String
  name : String
deriving DecidableEq, Repr

/-- Public application data, kept opaque (no claim inspects it). -/
structure Application where
  id : String
deriving DecidableEq, Repr

/-- Application-specific sign-in-experience override, kept opaque. -/
structure ApplicationSignInExperience where
  applicationId : String
deriving DecidableEq, Repr

/-- Public user info, kept opaque (no claim inspects it). -/
structure UserInfo where
  id : String
deriving DecidableEq, Repr

/-- The interaction session; carries the authenticated user id. -/
structure Session where
  accountId : String
deriving DecidableEq, Repr

/-- OIDC params of the interaction. A value is `none` when the JS value
is absent or not a string; the handlers additionally reject the empty
string (falsy in JS). -/
structure Params where
  client_id : Option String
  redirect_uri : Option String
deriving DecidableEq, Repr

/-- The prompt details: missing OIDC scope names and the mapping from
resource indicator to missing scope names, both possibly absent. -/
structure Prompt where
  missingOIDCScope : Option (List String)
  missingResourceScopes : Option (List (String × List String))
deriving DecidableEq, Repr

/-- The interaction details exposed by the authorization collaborator. -/
structure InteractionDetails where
  session : Option Session
  params : Params
  prompt : Prompt
deriving DecidableEq, Repr

/-- Errors thrown by the consent routes. -/
inductive ConsentError where
  | sessionNotFound : ConsentError
  | invalidClient : String → ConsentError
  | invalidRedirectUri : String → ConsentError
  | invalidTarget : String → ConsentError
  | membershipError : ConsentError
deriving DecidableEq, Repr

/-- Whether an error is an `InvalidTarget` protocol error. -/
def ConsentError.isInvalidTarget : ConsentError → Bool
  | .invalidTarget _ => true
  | _ => false

/-- The persistence query interface consumed by the consent routes,
embedded as plain functions. `organizationScopes` is the scope list
returned by `queries.organizations.scopes.findAll()`. -/
structure Queries where
  organizationScopes : List Scope
  findResourceByIndicator : String → Option Resource
  findScopeByNameAndResourceId : String → String → Option Scope
  getOrganizationsByUserId : String → List Organization
  findApplicationById : String → Application
  safeFindSignInExperienceByApplicationId : String → Option ApplicationSignInExperience
  findUserById : String → UserInfo

/-- Environment and external collaborators: the dev-features flag
(`EnvSet.values.isDevFeaturesEnabled`) and the resource-scope resolver
`findResourceScopes` (indicator, userId, findFromOrganizations,
organizationId). -/
structure Env where
  isDevFeaturesEnabled : Bool
  findResourceScopes : String → String → Bool → Option String → List Scope

/-- The tenant libraries consumed by the POST handler, reduced to the
user-membership relation backing the organization membership validator. -/
structure Libraries where
  memberOf : String → List String

/-- Effectful map over `Except`, the embedding of `Promise.all` over an
entry-wise async map: every element is processed, a failing element
fails the batch, and results keep the input order. -/
def exceptMapM {α β : Type} (f : α → Except ConsentError β) : List α → Except ConsentError (List β)
  | [] => .ok []
  | a :: as =>
    match f a with
    | .error e => .error e
    | .ok b =>
      match exceptMapM f as with
      | .error e => .error e
      | .ok bs => .ok (b :: bs)

/-- Resolution of one requested scope name against the organization scope
namespace: `organizationScopes.find` plus the `assertThat` that throws
`InvalidTarget` when the name does not resolve. -/
def lookupOrgScope (q : Queries) (scopeName : String) : Except ConsentError Scope :=
  match q.organizationScopes.find? (fun s => s.name == scopeName) with
  | some scope => .ok scope
  | none =>
    .error (.invalidTarget ("scope with name " ++ scopeName ++ " not found for organization resource"))

/-- Processing of one `[resourceIndicator, scopeNames]` entry of the
missing-resource-scopes mapping, the body of the `Promise.all` map in
`parseMissingResourceScopesInfo`: the reserved organization indicator
resolves every name against the organization scopes (fatal on a miss);
any other indicator must resolve to an existing resource (fatal
otherwise) and its scope names resolve via name+resource lookup, misses
being silently dropped. -/
def parseEntry (q : Queries) (entry : String × List String) : Except ConsentError MissingResourceScopes :=
  if entry.1 == ReservedResource_Organization then
    match exceptMapM (lookupOrgScope q) entry.2 with
    | .error e => .error e
    | .ok scopes => .ok { resource := { id := entry.1, name := entry.1 }, scopes := scopes }
  else
    match q.findResourceByIndicator entry.1 with
    | none =>
      .error (.invalidTarget ("resource with indicator " ++ entry.1 ++ " not found"))
    | some resource =>
      .ok { resource := { id := resource.id, name := resource.name },
            scopes := entry.2.filterMap (fun n => q.findScopeByNameAndResourceId n resource.id) }

/-- `parseMissingResourceScopesInfo`: enrich the missing-resource-scopes
mapping into structured records, then drop every record whose resolved
scope list is empty. -/
def parseMissingResourceScopesInfo (q : Queries) (missingResourceScopes : Option (List (String × List String))) : Except ConsentError (List MissingResourceScopes) :=
  match missingResourceScopes with
  | none => .ok []
  | some entries =>
    match exceptMapM (parseEntry q) entries with
    | .error e => .error e
    | .ok resourcesWithScopes =>
      .ok (resourcesWithScopes.filter (fun r => r.scopes.length > 0))

/-- The `filteredResourceScopes` mapping built inside
`filterAndParseMissingResourceScopes`: when the dev-features flag is
disabled an entry passes through unchanged; otherwise the missing scope
names are filtered down to the names present in the scopes returned by
`findResourceScopes` for this user (and optional organization). -/
def filteredResourceScopes (env : Env) (userId : String) (organizationId : Option String) (resourceScopes : List (String × List String)) : List (String × List String) :=
  resourceScopes.map (fun p =>
    if !env.isDevFeaturesEnabled then p
    else
      let scopes := env.findResourceScopes p.1 userId organizationId.isSome organizationId
      (p.1, p.2.filter (fun scope => scopes.any (fun s => s.name == scope))))

/-- `filterAndParseMissingResourceScopes`: filter the raw mapping (when
the capability is enabled), then enrich it. -/
def filterAndParseMissingResourceScopes (env : Env) (q : Queries) (resourceScopes : List (String × List String)) (userId : String) (organizationId : Option String) : Except ConsentError (List MissingResourceScopes) :=
  parseMissingResourceScopesInfo q (some (filteredResourceScopes env userId organizationId resourceScopes))

/-- Modelled from the spec: `validateUserConsentOrganizationMembership`
(the Organization Membership Validator, §4.4; its implementation lives
outside the shown sources). For every id in `organizationIds` the user
must currently be a member; if any membership is missing the whole
operation fails all-or-nothing with a membership error. -/
def validateUserConsentOrganizationMembership (lib : Libraries) (userId : String) (organizationIds : List String) : Except ConsentError Unit :=
  if organizationIds.all (fun o => (lib.memberOf userId).contains o) then .ok ()
  else .error .membershipError

/-- Modelled from the spec: `getMissingScopes` (the missing-scopes
extractor of the session library, outside the shown sources): takes the
prompt and returns `{missingOIDCScope, missingResourceScopes}`. -/
def getMissingScopes (p : Prompt) : Option (List String) × Option (List (String × List String)) :=
  (p.missingOIDCScope, p.missingResourceScopes)

/-- Result of a successful POST: the consent-grant tuples
`(applicationId, userId, organizationId)` passed to the batch insert
`queries.applications.userConsentOrganizations.insert`, and the redirect
target from the finalize-consent collaborator. -/
structure PostResult where
  insertedGrants : List (String × String × String)
  redirectTo : String
deriving DecidableEq, Repr

/-- The POST consent handler. `finalize` embeds the `consent`
collaborator (the authorization layer's finalize-consent operation,
outside the shown sources), which produces the redirect target. The
handler touches session / client only when `organizationIds` is present
and non-empty (`organizationIds?.length` truthiness). -/
def postConsent (lib : Libraries) (finalize : InteractionDetails → String) (details : InteractionDetails) (organizationIds : Option (List String)) : Except ConsentError PostResult :=
  match organizationIds with
  | some ids =>
    if ids.isEmpty then
      .ok { insertedGrants := [], redirectTo := finalize details }
    else
      match details.session with
      | none => .error .sessionNotFound
      | some session =>
        match details.params.client_id with
        | none => .error (.invalidClient "client must be available")
        | some applicationId =>
          if applicationId.isEmpty then .error (.invalidClient "client must be available")
          else
            let userId := session.accountId
            match validateUserConsentOrganizationMembership lib userId ids with
            | .error e => .error e
            | .ok _ =>
              .ok { insertedGrants := ids.map (fun organizationId => (applicationId, userId, organizationId)),
                    redirectTo := finalize details }
  | none => .ok { insertedGrants := [], redirectTo := finalize details }

/-- One element of the `organizations` field of the GET response: the
organization identity plus, only when the dev-features flag is enabled,
its own missing-resource-scopes breakdown. -/
structure OrganizationEntry where
  id : String
  name : String
  missingResourceScopes : Option (List MissingResourceScopes)
deriving DecidableEq, Repr

/-- The GET consent response body (`ConsentInfoResponse`). The merged
application view is embedded as the application record plus the optional
sign-in-experience override. -/
structure ConsentInfoResponse where
  application : Application
  applicationSignInExperience : Option ApplicationSignInExperience
  user : UserInfo
  organizations : List OrganizationEntry
  missingOIDCScope : Option (List String)
  missingResourceScopes : List MissingResourceScopes
  redirectUri : String
deriving DecidableEq, Repr

/-- Processing of one organization in the GET handler: identity only when
the dev-features flag is disabled, otherwise identity plus the
organization-scoped missing-resource-scopes breakdown. -/
def organizationEntryOf (env : Env) (q : Queries) (allMissingResourceScopes : List (String × List String)) (accountId : String) (org : Organization) : Except ConsentError OrganizationEntry :=
  if !env.isDevFeaturesEnabled then
    .ok { id := org.id, name := org.name, missingResourceScopes := none }
  else
    match filterAndParseMissingResourceScopes env q allMissingResourceScopes accountId (some org.id) with
    | .error e => .error e
    | .ok mrs => .ok { id := org.id, name := org.name, missingResourceScopes := some mrs }

/-- The GET consent handler: asserts session, `client_id` and
`redirect_uri`; loads application / sign-in experience / user; builds
the global missing-resource-scopes list; fetches the user's
organizations only when the `organizations` OIDC scope is missing;
builds each organization entry; assembles the response with `openid`
and `offline_access` filtered out of `missingOIDCScope`. -/
def getConsent (env : Env) (q : Queries) (details : InteractionDetails) : Except ConsentError ConsentInfoResponse :=
  match details.session with
  | none => .error .sessionNotFound
  | some session =>
    match details.params.client_id with
    | none => .error (.invalidClient "client must be available")
    | some clientId =>
      if clientId.isEmpty then .error (.invalidClient "client must be available")
      else
        match details.params.redirect_uri with
        | none => .error (.invalidRedirectUri "redirect_uri must be available")
        | some redirectUri =>
          if redirectUri.isEmpty then .error (.invalidRedirectUri "redirect_uri must be available")
          else
            let accountId := session.accountId
            let application := q.findApplicationById clientId
            let applicationSignInExperience := q.safeFindSignInExperienceByApplicationId clientId
            let userInfo := q.findUserById accountId
            let scopesInfo := getMissingScopes details.prompt
            let missingOIDCScope := scopesInfo.1
            let allMissingResourceScopes := scopesInfo.2.getD []
            match filterAndParseMissingResourceScopes env q allMissingResourceScopes accountId none with
            | .error e => .error e
            | .ok missingResourceScopes =>
              let organizations :=
                if (missingOIDCScope.getD []).contains UserScope_Organizations then
                  q.getOrganizationsByUserId accountId
                else []
              match exceptMapM (organizationEntryOf env q allMissingResourceScopes accountId) organizations with
              | .error e => .error e
              | .ok organizationsWithMissingResourceScopes =>
                .ok { application := application,
                      applicationSignInExperience := applicationSignInExperience,
                      user := userInfo,
                      organizations := organizationsWithMissingResourceScopes,
                      missingOIDCScope :=
                        missingOIDCScope.map (List.filter (fun scope => scope != "openid" && scope != "offline_access")),
                      missingResourceScopes := missingResourceScopes,
                      redirectUri := redirectUri }

/-! ### Concrete sample data used by the witness theorems -/

/-- A sample resource scope. -/
def scopeRead : Scope := { id := "scope-id-1", name := "read" }

/-- A sample organization scope. -/
def orgScopeRead : Scope := { id := "org-scope-1", name := "org:read" }

/-- A sample resource. -/
def resourceA : Resource := { id := "res-1", name := "API", indicator := "https://api.example.com" }

/-- A sample query interface: one resource with one scope, one
organization scope, one organization membership relation. -/
def qSample : Queries :=
  { organizationScopes := [orgScopeRead]
  , findResourceByIndicator := fun ind =>
      if ind == "https://api.example.com" then some resourceA else none
  , findScopeByNameAndResourceId := fun n rid =>
      if n == "read" && rid == "res-1" then some scopeRead else none
  , getOrganizationsByUserId := fun _ => [{ id := "org-1", name := "Org One" }]
  , findApplicationById := fun c => { id := c }
  , safeFindSignInExperienceByApplicationId := fun _ => none
  , findUserById := fun u => { id := u } }

/-- A sample environment with the dev-features capability disabled. -/
def envOff : Env := { isDevFeaturesEnabled := false, findResourceScopes := fun _ _ _ _ => [] }

/-- A sample membership relation: user-1 belongs only to org-1. -/
def libSample : Libraries := { memberOf := fun u => if u == "user-1" then ["org-1"] else [] }

/-- A sample finalize-consent collaborator. -/
def finSample : InteractionDetails → String := fun _ => "https://redirect.example.com"

/-- A sample interaction with session, client and redirect present. -/
def detailsSample : InteractionDetails :=
  { session := some { accountId := "user-1" }
  , params := { client_id := some "app-1", redirect_uri := some "https://cb.example.com" }
  , prompt := { missingOIDCScope := some ["openid", "profile", "offline_access"]
              , missingResourceScopes := none } }

/-- A sample interaction with no session and no params. -/
def detailsNoSession : InteractionDetails :=
  { session := none
  , params := { client_id := none, redirect_uri := none }
  , prompt := { missingOIDCScope := none, missingResourceScopes := none } }

/-! ### Helper lemmas -/

/-- A successful `exceptMapM` run processes every element successfully,
in order. -/
lemma exceptMapM_ok_forall₂ {α β : Type} (f : α → Except ConsentError β) :
    ∀ (l : List α) (rs : List β), exceptMapM f l = .ok rs →
      List.Forall₂ (fun a b => f a = .ok b) l rs := by
  intro l
  induction l with
  | nil =>
    intro rs h
    simp only [exceptMapM] at h
    cases h
    exact List.Forall₂.nil
  | cons a as ih =>
    intro rs h
    simp only [exceptMapM] at h
    cases hfa : f a with
    | error e => rw [hfa] at h; cases h
    | ok b =>
      rw [hfa] at h
      cases hmas : exceptMapM f as with
      | error e => rw [hmas] at h; cases h
      | ok bs =>
        rw [hmas] at h
        cases h
        exact List.Forall₂.cons hfa (ih bs hmas)

/-- If some element of the batch fails, the whole `exceptMapM` run
fails (with the error of the first failing element). -/
lemma exceptMapM_error_of_mem {α β : Type} (f : α → Except ConsentError β) :
    ∀ (l : List α) (a : α) (e : ConsentError), a ∈ l → f a = .error e →
      ∃ e2, exceptMapM f l = .error e2 := by
  intro l
  induction l with
  | nil => intro a e ha _; cases ha
  | cons b bs ih =>
    intro a e ha hfa
    simp only [exceptMapM]
    cases hfb : f b with
    | error e2 => exact ⟨e2, rfl⟩
    | ok v =>
      rcases List.mem_cons.mp ha with rfl | hmem
      · rw [hfa] at hfb; cases hfb
      · rcases ih a e hmem hfa with ⟨e2, h2⟩
        rw [h2]
        exact ⟨e2, rfl⟩

/-- Error propagation through `exceptMapM`: any error of the batch is an
error of one element. -/
lemma exceptMapM_error_pred {α β : Type} (f : α → Except ConsentError β)
    (p : ConsentError → Prop) (hp : ∀ a e, f a = .error e → p e) :
    ∀ (l : List α) (e : ConsentError), exceptMapM f l = .error e → p e := by
  intro l
  induction l with
  | nil => intro e h; simp only [exceptMapM] at h; cases h
  | cons a as ih =>
    intro e h
    simp only [exceptMapM] at h
    cases hfa : f a with
    | error e2 =>
      rw [hfa] at h
      cases h
      exact hp a e hfa
    | ok b =>
      rw [hfa] at h
      cases hmas : exceptMapM f as with
      | error e2 =>
        rw [hmas] at h
        cases h
        exact ih e hmas
      | ok bs => rw [hmas] at h; cases h

/-- Every error of `lookupOrgScope` is an invalid-target error. -/
lemma lookupOrgScope_error_isInvalidTarget (q : Queries) (n : String) (e : ConsentError)
    (h : lookupOrgScope q n = .error e) : e.isInvalidTarget = true := by
  unfold lookupOrgScope at h
  cases hf : q.organizationScopes.find? (fun s => s.name == n) with
  | some s => rw [hf] at h; cases h
  | none =>
    rw [hf] at h
    cases h
    rfl

/-- Every error of `parseEntry` is an invalid-target error. -/
lemma parseEntry_error_isInvalidTarget (q : Queries) (entry : String × List String)
    (e : ConsentError) (h : parseEntry q entry = .error e) : e.isInvalidTarget = true := by
  unfold parseEntry at h
  by_cases hind : (entry.1 == ReservedResource_Organization) = true
  · rw [if_pos hind] at h
    cases hm : exceptMapM (lookupOrgScope q) entry.2 with
    | error e2 =>
      rw [hm] at h
      cases h
      exact exceptMapM_error_pred (lookupOrgScope q) (fun e => e.isInvalidTarget = true)
        (lookupOrgScope_error_isInvalidTarget q) entry.2 e hm
    | ok scopes => rw [hm] at h; cases h
  · rw [if_neg hind] at h
    cases hr : q.findResourceByIndicator entry.1 with
    | none =>
      rw [hr] at h
      cases h
      rfl
    | some resource => rw [hr] at h; cases h

/-- Every error of the enricher is an invalid-target error, and an
erroring batch yields an erroring enricher run. -/
lemma parse_error_isInvalidTarget (q : Queries) (entries : List (String × List String))
    (e : ConsentError) (h : parseMissingResourceScopesInfo q (some entries) = .error e) :
    e.isInvalidTarget = true := by
  simp only [parseMissingResourceScopesInfo] at h
  cases hm : exceptMapM (parseEntry q) entries with
  | error e2 =>
    rw [hm] at h
    cases h
    exact exceptMapM_error_pred (parseEntry q) (fun e => e.isInvalidTarget = true)
      (parseEntry_error_isInvalidTarget q) entries e hm
  | ok rws => rw [hm] at h; cases h

/-- A successful enricher run is the filter of a successful batch. -/
lemma parse_ok_eq_filter (q : Queries) (entries : List (String × List String))
    (out : List MissingResourceScopes)
    (h : parseMissingResourceScopesInfo q (some entries) = .ok out) :
    ∃ rs, exceptMapM (parseEntry q) entries = .ok rs ∧
      out = rs.filter (fun r => r.scopes.length > 0) := by
  simp only [parseMissingResourceScopesInfo] at h
  cases hm : exceptMapM (parseEntry q) entries with
  | error e2 => rw [hm] at h; cases h
  | ok rws =>
    rw [hm] at h
    cases h
    exact ⟨rws, rfl, rfl⟩

/-- Every record of a successful enricher run has a non-empty scope
list. -/
lemma parse_ok_scopes_ne_nil (q : Queries) (entries : List (String × List String))
    (out : List MissingResourceScopes)
    (h : parseMissingResourceScopesInfo q (some entries) = .ok out) :
    ∀ r ∈ out, r.scopes ≠ [] := by
  rcases parse_ok_eq_filter q entries out h with ⟨rs, _, rfl⟩
  intro r hr
  have hlen := List.of_mem_filter hr
  intro hnil
  rw [hnil] at hlen
  simp at hlen

/-! ### Claim theorems -/

/-- C1: a POST consent request whose `organizationIds` list contains an
organization the user is not a member of fails with the membership
error; because the handler short-circuits on the error, no consent-grant
tuples are produced for any supplied organization id and no
finalize-consent redirect target is produced (the result is an error,
not a `PostResult`). -/
theorem postConsent_membership_violation (lib : Libraries)
    (finalize : InteractionDetails → String) (details : InteractionDetails)
    (ids : List String) (sess : Session) (applicationId : String)
    (hids : ids ≠ [])
    (hsess : details.session = some sess)
    (hclient : details.params.client_id = some applicationId)
    (happ : applicationId.isEmpty = false)
    (hmem : ∃ o ∈ ids, o ∉ lib.memberOf sess.accountId) :
    postConsent lib finalize details (some ids) = .error .membershipError := by
  have hval : validateUserConsentOrganizationMembership lib sess.accountId ids
      = .error .membershipError := by
    unfold validateUserConsentOrganizationMembership
    cases hall : ids.all (fun o => (lib.memberOf sess.accountId).contains o) with
    | true =>
      exfalso
      rcases hmem with ⟨o, ho, hno⟩
      have hcontains := List.all_eq_true.mp hall o ho
      exact hno (by simpa using hcontains)
    | false => simp [hall]
  have hne : ids.isEmpty = false := by simp [List.isEmpty_iff, hids]
  simp only [postConsent, hne, hsess, hclient, happ, hval, Bool.false_eq_true, if_false]

/-- C1 witness: user-1 belongs to org-1 but not org-2, so the request
fails with the membership error. -/
theorem postConsent_membership_violation_witness :
    postConsent libSample finSample detailsSample (some ["org-1", "org-2"])
      = .error .membershipError :=
  postConsent_membership_violation libSample finSample detailsSample
    ["org-1", "org-2"] { accountId := "user-1" } "app-1"
    (by decide) rfl rfl rfl
    ⟨"org-2", by decide, by simp [libSample]⟩

/-- C2: a POST consent request with a non-empty `organizationIds` list,
a session, a present client id, and membership in every supplied
organization produces exactly one grant tuple
`(applicationId, userId, organizationId)` per supplied organization id,
in one batch, and responds with the redirect target from the
finalize-consent collaborator. -/
theorem postConsent_success (lib : Libraries)
    (finalize : InteractionDetails → String) (details : InteractionDetails)
    (ids : List String) (sess : Session) (applicationId : String)
    (hids : ids ≠ [])
    (hsess : details.session = some sess)
    (hclient : details.params.client_id = some applicationId)
    (happ : applicationId.isEmpty = false)
    (hmem : ∀ o ∈ ids, o ∈ lib.memberOf sess.accountId) :
    postConsent lib finalize details (some ids)
      = .ok { insertedGrants := ids.map (fun organizationId => (applicationId, sess.accountId, organizationId))
            , redirectTo := finalize details } := by
  have hval : validateUserConsentOrganizationMembership lib sess.accountId ids = .ok () := by
    unfold validateUserConsentOrganizationMembership
    have hall : ids.all (fun o => (lib.memberOf sess.accountId).contains o) = true :=
      List.all_eq_true.mpr (fun o ho => by simpa using hmem o ho)
    rw [hall]
    rfl
  have hne : ids.isEmpty = false := by simp [List.isEmpty_iff, hids]
  simp only [postConsent, hne, hsess, hclient, happ, hval, Bool.false_eq_true, if_false]

/-- C2 witness: user-1 belongs to org-1; exactly one grant tuple
`("app-1", "user-1", "org-1")` is produced, with the collaborator's
redirect target. -/
theorem postConsent_success_witness :
    postConsent libSample finSample detailsSample (some ["org-1"])
      = .ok { insertedGrants := [("app-1", "user-1", "org-1")]
            , redirectTo := "https://redirect.example.com" } :=
  postConsent_success libSample finSample detailsSample
    ["org-1"] { accountId := "user-1" } "app-1"
    (by decide) rfl rfl rfl
    (by intro o ho; simp at ho; simp [libSample, ho])

/-- C10: a POST consent request with `organizationIds` absent or empty
performs no session or client assertions and no membership validation,
produces no grant tuples, and proceeds directly to finalize consent,
returning its redirect target — even when the interaction session or
client id is missing. -/
theorem postConsent_skips_when_no_organizations (lib : Libraries)
    (finalize : InteractionDetails → String) (details : InteractionDetails)
    (organizationIds : Option (List String))
    (h : organizationIds = none ∨ organizationIds = some []) :
    postConsent lib finalize details organizationIds
      = .ok { insertedGrants := [], redirectTo := finalize details } := by
  rcases h with rfl | rfl
  · rfl
  · rfl

/-- C10 witness: with no session, no client id and an absent
`organizationIds`, the handler still returns the redirect target with
zero grants. -/
theorem postConsent_skips_when_no_organizations_witness :
    postConsent libSample finSample detailsNoSession none
      = .ok { insertedGrants := [], redirectTo := "https://redirect.example.com" } :=
  postConsent_skips_when_no_organizations libSample finSample detailsNoSession none (Or.inl rfl)

/-- C7: when the dev-features capability is disabled, the filter step
passes every entry of the missing-resource-scopes mapping through
unchanged (the filtered mapping equals the input mapping), and
`filterAndParseMissingResourceScopes` coincides with running the
enricher directly on the raw input mapping. -/
theorem filter_skipped_when_capability_disabled (env : Env) (q : Queries)
    (resourceScopes : List (String × List String)) (userId : String)
    (organizationId : Option String)
    (h : env.isDevFeaturesEnabled = false) :
    filteredResourceScopes env userId organizationId resourceScopes = resourceScopes ∧
      filterAndParseMissingResourceScopes env q resourceScopes userId organizationId
        = parseMissingResourceScopesInfo q (some resourceScopes) := by
  have hfiltered : filteredResourceScopes env userId organizationId resourceScopes = resourceScopes := by
    unfold filteredResourceScopes
    rw [h]
    simp
  refine ⟨hfiltered, ?_⟩
  unfold filterAndParseMissingResourceScopes
  rw [hfiltered]

/-- C7 witness: with the capability disabled, a concrete two-entry
mapping passes through the filter unchanged. -/
theorem filter_skipped_when_capability_disabled_witness :
    filteredResourceScopes envOff "user-1" none
        [("https://api.example.com", ["read", "write"]), ("other", ["x"])]
      = [("https://api.example.com", ["read", "write"]), ("other", ["x"])] ∧
    filterAndParseMissingResourceScopes envOff qSample
        [("https://api.example.com", ["read", "write"]), ("other", ["x"])] "user-1" none
      = parseMissingResourceScopesInfo qSample
          (some [("https://api.example.com", ["read", "write"]), ("other", ["x"])]) :=
  filter_skipped_when_capability_disabled envOff qSample
    [("https://api.example.com", ["read", "write"]), ("other", ["x"])] "user-1" none rfl

/-- C3: in the enricher, a requested scope name under the reserved
organization pseudo-resource indicator that does not resolve to an
existing organization scope makes the whole run fail with an
invalid-target error. -/
theorem parse_org_scope_not_found_fails (q : Queries)
    (entries : List (String × List String)) (names : List String)
    (hentries : (ReservedResource_Organization, names) ∈ entries)
    (hname : ∃ n ∈ names, ∀ s ∈ q.organizationScopes, s.name ≠ n) :
    ∃ e, parseMissingResourceScopesInfo q (some entries) = .error e ∧
      e.isInvalidTarget = true := by
  rcases hname with ⟨n, hn, hns⟩
  have hlookup : lookupOrgScope q n
      = .error (.invalidTarget ("scope with name " ++ n ++ " not found for organization resource")) := by
    unfold lookupOrgScope
    have hfind : q.organizationScopes.find? (fun s => s.name == n) = none := by
      apply List.find?_eq_none.mpr
      intro s hs
      simpa using hns s hs
    rw [hfind]
  rcases exceptMapM_error_of_mem (lookupOrgScope q) names n _ hn hlookup with ⟨e1, he1⟩
  have hentry : parseEntry q (ReservedResource_Organization, names) = .error e1 := by
    simp [parseEntry, he1]
  rcases exceptMapM_error_of_mem (parseEntry q) entries (ReservedResource_Organization, names)
    e1 hentries hentry with ⟨e2, he2⟩
  have hparse : parseMissingResourceScopesInfo q (some entries) = .error e2 := by
    simp only [parseMissingResourceScopesInfo]
    rw [he2]
  exact ⟨e2, hparse, parse_error_isInvalidTarget q entries e2 hparse⟩

/-- C3 witness: the organization scope name `nonexistent` does not exist
in the sample queries, so the enricher fails with an invalid-target
error. -/
theorem parse_org_scope_not_found_fails_witness :
    ∃ e, parseMissingResourceScopesInfo qSample
        (some [(ReservedResource_Organization, ["nonexistent"])]) = .error e ∧
      e.isInvalidTarget = true :=
  parse_org_scope_not_found_fails qSample
    [(ReservedResource_Organization, ["nonexistent"])] ["nonexistent"]
    (by simp)
    ⟨"nonexistent", by simp, by intro s hs; simp [qSample, orgScopeRead] at hs; simp [hs]⟩

/-- C6: in the enricher, a non-organization resource indicator that does
not resolve to an existing resource fails the whole run with an
invalid-target error — also when other indicators of the same mapping
would resolve successfully (the statement quantifies over the rest of
the mapping). -/
theorem parse_resource_not_found_fails (q : Queries)
    (entries : List (String × List String)) (ind : String) (names : List String)
    (hentries : (ind, names) ∈ entries)
    (hind : ind ≠ ReservedResource_Organization)
    (hres : q.findResourceByIndicator ind = none) :
    ∃ e, parseMissingResourceScopesInfo q (some entries) = .error e ∧
      e.isInvalidTarget = true := by
  have hentry : parseEntry q (ind, names)
      = .error (.invalidTarget ("resource with indicator " ++ ind ++ " not found")) := by
    simp [parseEntry, beq_iff_eq, hind, hres]
  rcases exceptMapM_error_of_mem (parseEntry q) entries (ind, names) _ hentries hentry with ⟨e2, he2⟩
  have hparse : parseMissingResourceScopesInfo q (some entries) = .error e2 := by
    simp only [parseMissingResourceScopesInfo]
    rw [he2]
  exact ⟨e2, hparse, parse_error_isInvalidTarget q entries e2 hparse⟩

/-- C6 witness: the indicator `https://unknown.example.com` resolves to
no resource in the sample queries, and the run fails although the other
entry (`https://api.example.com`) resolves successfully. -/
theorem parse_resource_not_found_fails_witness :
    ∃ e, parseMissingResourceScopesInfo qSample
        (some [("https://api.example.com", ["read"]), ("https://unknown.example.com", ["read"])])
      = .error e ∧ e.isInvalidTarget = true :=
  parse_resource_not_found_fails qSample
    [("https://api.example.com", ["read"]), ("https://unknown.example.com", ["read"])]
    "https://unknown.example.com" ["read"]
    (by simp) (by decide) (by simp [qSample])

/-- C4: for a genuine resource indicator that resolves to an existing
resource, the enricher's record for it carries exactly the requested
scope names that resolve on that resource (non-resolving names are
silently omitted via `filterMap`); every record of a successful run has
a non-empty scope list; and if none of the entry's requested names
resolve, the record produced for that entry is absent from the
output. -/
theorem parse_silently_drops_unresolved_scopes (q : Queries) (ind : String)
    (names : List String) (res : Resource) (entries : List (String × List String))
    (out : List MissingResourceScopes)
    (hind : ind ≠ ReservedResource_Organization)
    (hres : q.findResourceByIndicator ind = some res) :
    parseEntry q (ind, names)
      = .ok { resource := { id := res.id, name := res.name }
            , scopes := names.filterMap (fun n => q.findScopeByNameAndResourceId n res.id) } ∧
    (parseMissingResourceScopesInfo q (some entries) = .ok out → ∀ r ∈ out, r.scopes ≠ []) ∧
    ((∀ n ∈ names, q.findScopeByNameAndResourceId n res.id = none) →
      parseMissingResourceScopesInfo q (some entries) = .ok out →
      ∀ rec, parseEntry q (ind, names) = .ok rec → rec ∉ out) := by
  have hentry : parseEntry q (ind, names)
      = .ok { resource := { id := res.id, name := res.name }
            , scopes := names.filterMap (fun n => q.findScopeByNameAndResourceId n res.id) } := by
    simp [parseEntry, beq_iff_eq, hind, hres]
  refine ⟨hentry, fun hout => parse_ok_scopes_ne_nil q entries out hout, ?_⟩
  intro hnone hout rec hrec hin
  rw [hentry] at hrec
  cases hrec
  have hempty : names.filterMap (fun n => q.findScopeByNameAndResourceId n res.id) = [] :=
    List.filterMap_eq_nil_iff.mpr hnone
  exact parse_ok_scopes_ne_nil q entries out hout _ hin hempty

/-- C4 witness: on the sample resource, the requested name `ghost` does
not resolve and is omitted while `read` survives. -/
theorem parse_silently_drops_unresolved_scopes_witness :
    parseEntry qSample ("https://api.example.com", ["read", "ghost"])
      = .ok { resource := { id := resourceA.id, name := resourceA.name }
            , scopes := ["read", "ghost"].filterMap
                (fun n => qSample.findScopeByNameAndResourceId n resourceA.id) } ∧
    (parseMissingResourceScopesInfo qSample (some [("https://api.example.com", ["read", "ghost"])])
        = .ok ([{ resource := { id := "res-1", name := "API" }, scopes := [scopeRead] }] : List MissingResourceScopes) →
      ∀ r ∈ ([{ resource := { id := "res-1", name := "API" }, scopes := [scopeRead] }] : List MissingResourceScopes),
        r.scopes ≠ []) ∧
    ((∀ n ∈ (["read", "ghost"] : List String), qSample.findScopeByNameAndResourceId n resourceA.id = none) →
      parseMissingResourceScopesInfo qSample (some [("https://api.example.com", ["read", "ghost"])])
        = .ok ([{ resource := { id := "res-1", name := "API" }, scopes := [scopeRead] }] : List MissingResourceScopes) →
      ∀ rec, parseEntry qSample ("https://api.example.com", ["read", "ghost"]) = .ok rec →
        rec ∉ ([{ resource := { id := "res-1", name := "API" }, scopes := [scopeRead] }] : List MissingResourceScopes)) :=
  parse_silently_drops_unresolved_scopes qSample "https://api.example.com"
    ["read", "ghost"] resourceA [("https://api.example.com", ["read", "ghost"])]
    [{ resource := { id := "res-1", name := "API" }, scopes := [scopeRead] }]
    (by decide) rfl

/-- C9: a successful enricher run processes the entries of the input
mapping pairwise in order (`Forall₂`), and the output is the
order-preserving filter of those per-entry records: surviving records
appear in the same relative order as their indicators in the input
mapping. -/
theorem parse_preserves_input_order (q : Queries)
    (entries : List (String × List String)) (out : List MissingResourceScopes)
    (h : parseMissingResourceScopesInfo q (some entries) = .ok out) :
    ∃ rs, List.Forall₂ (fun e r => parseEntry q e = .ok r) entries rs ∧
      out = rs.filter (fun r => r.scopes.length > 0) := by
  rcases parse_ok_eq_filter q entries out h with ⟨rs, hrs, hout⟩
  exact ⟨rs, exceptMapM_ok_forall₂ (parseEntry q) entries rs hrs, hout⟩

/-- C9 witness: a two-entry mapping (a genuine resource, then the
reserved organization indicator) yields records in the same order. -/
theorem parse_preserves_input_order_witness :
    ∃ rs, List.Forall₂ (fun e r => parseEntry qSample e = .ok r)
        [("https://api.example.com", ["read"]), (ReservedResource_Organization, ["org:read"])] rs ∧
      [{ resource := { id := "res-1", name := "API" }, scopes := [scopeRead] },
       { resource := { id := ReservedResource_Organization, name := ReservedResource_Organization }
       , scopes := [orgScopeRead] }]
        = rs.filter (fun r => r.scopes.length > 0) :=
  parse_preserves_input_order qSample
    [("https://api.example.com", ["read"]), (ReservedResource_Organization, ["org:read"])]
    [{ resource := { id := "res-1", name := "API" }, scopes := [scopeRead] },
     { resource := { id := ReservedResource_Organization, name := ReservedResource_Organization }
     , scopes := [orgScopeRead] }]
    rfl

/-- Field facts of a successful GET run: the response's
`missingOIDCScope` is the prompt's list with `openid` and
`offline_access` filtered out, and when the organizations OIDC scope is
not among the missing scopes the organizations list is empty. -/
lemma getConsent_ok_fields (env : Env) (q : Queries) (details : InteractionDetails)
    (r : ConsentInfoResponse) (h : getConsent env q details = .ok r) :
    r.missingOIDCScope = details.prompt.missingOIDCScope.map
        (List.filter (fun scope => scope != "openid" && scope != "offline_access")) ∧
    ((details.prompt.missingOIDCScope.getD []).contains UserScope_Organizations = false →
      r.organizations = []) := by
  cases hsess : details.session with
  | none =>
    simp only [getConsent, hsess] at h
    exact Except.noConfusion h
  | some sess =>
    cases hcid : details.params.client_id with
    | none =>
      simp only [getConsent, hsess, hcid] at h
      exact Except.noConfusion h
    | some clientId =>
      cases hce : clientId.isEmpty with
      | true =>
        simp only [getConsent, hsess, hcid, hce, if_true] at h
        exact Except.noConfusion h
      | false =>
        cases hru : details.params.redirect_uri with
        | none =>
          simp only [getConsent, hsess, hcid, hce, hru, Bool.false_eq_true, if_false] at h
          exact Except.noConfusion h
        | some redirectUri =>
          cases hre : redirectUri.isEmpty with
          | true =>
            simp only [getConsent, hsess, hcid, hce, hru, hre, Bool.false_eq_true, if_false,
              if_true] at h
            exact Except.noConfusion h
          | false =>
            simp only [getConsent, hsess, hcid, hce, hru, hre, Bool.false_eq_true, if_false,
              getMissingScopes] at h
            cases hfp : filterAndParseMissingResourceScopes env q
                (details.prompt.missingResourceScopes.getD []) sess.accountId none with
            | error e =>
              rw [hfp] at h
              exact Except.noConfusion h
            | ok mrs =>
              rw [hfp] at h
              cases horgs : exceptMapM
                  (organizationEntryOf env q (details.prompt.missingResourceScopes.getD [])
                    sess.accountId)
                  (if (details.prompt.missingOIDCScope.getD []).contains UserScope_Organizations
                    then q.getOrganizationsByUserId sess.accountId else []) with
              | error e =>
                rw [horgs] at h
                exact Except.noConfusion h
              | ok orgEntries =>
                rw [horgs] at h
                injection h with h2
                subst h2
                refine ⟨rfl, ?_⟩
                intro hc
                rw [hc] at horgs
                simp only [Bool.false_eq_true, if_false, exceptMapM] at horgs
                injection horgs with h3
                exact h3.symm

/-- C5: for every valid GET consent request that succeeds, the
`missingOIDCScope` list of the response never contains `openid` or
`offline_access`, whatever the prompt reported as missing. -/
theorem getConsent_excludes_reserved_oidc_scopes (env : Env) (q : Queries)
    (details : InteractionDetails) (r : ConsentInfoResponse) (l : List String)
    (h : getConsent env q details = .ok r)
    (hl : r.missingOIDCScope = some l) :
    "openid" ∉ l ∧ "offline_access" ∉ l := by
  rcases getConsent_ok_fields env q details r h with ⟨hmo, _⟩
  rw [hmo] at hl
  cases hp : details.prompt.missingOIDCScope with
  | none => rw [hp] at hl; cases hl
  | some l0 =>
    rw [hp] at hl
    injection hl with hl2
    subst hl2
    constructor
    · intro hin
      have hpa := List.of_mem_filter hin
      simp at hpa
    · intro hin
      have hpa := List.of_mem_filter hin
      simp at hpa

/-- C5 witness: the prompt reports `openid`, `profile` and
`offline_access` as missing; the response carries only `profile`. -/
theorem getConsent_excludes_reserved_oidc_scopes_witness :
    "openid" ∉ ["profile"] ∧ "offline_access" ∉ ["profile"] :=
  getConsent_excludes_reserved_oidc_scopes envOff qSample detailsSample
    { application := { id := "app-1" }
    , applicationSignInExperience := none
    , user := { id := "user-1" }
    , organizations := []
    , missingOIDCScope := some ["profile"]
    , missingResourceScopes := []
    , redirectUri := "https://cb.example.com" }
    ["profile"] rfl rfl

/-- C8: when the organizations OIDC scope is not among the missing
scopes of the prompt, a successful GET response carries an empty
`organizations` list, regardless of the user's actual memberships
(the statement quantifies over every query interface). -/
theorem getConsent_organizations_empty_without_scope (env : Env) (q : Queries)
    (details : InteractionDetails) (r : ConsentInfoResponse)
    (h : getConsent env q details = .ok r)
    (hscope : UserScope_Organizations ∉ details.prompt.missingOIDCScope.getD []) :
    r.organizations = [] := by
  rcases getConsent_ok_fields env q details r h with ⟨_, horg⟩
  exact horg (by simpa using hscope)

/-- C8 witness: the sample user belongs to an organization, yet the
response's organizations list is empty because the organizations scope
is not among the missing OIDC scopes. -/
theorem getConsent_organizations_empty_without_scope_witness :
    ({ application := { id := "app-1" }
     , applicationSignInExperience := none
     , user := { id := "user-1" }
     , organizations := []
     , missingOIDCScope := some ["profile"]
     , missingResourceScopes := []
     , redirectUri := "https://cb.example.com" } : ConsentInfoResponse).organizations = [] :=
  getConsent_organizations_empty_without_scope envOff qSample detailsSample
    { application := { id := "app-1" }
    , applicationSignInExperience := none
    , user := { id := "user-1" }
    , organizations := []
    , missingOIDCScope := some ["profile"]
    , missingResourceScopes := []
    , redirectUri := "https://cb.example.com" }
    rfl (by decide)
